import Mathlib

/-!
# Verification of the supercell-swf container codec

A shallow embedding of the texture tag codec, the tag dispatcher and the
external-texture resolution of the `supercell-swf` module, with theorems
checking the natural-language specification against it.

Conventions: TypeScript numbers holding small non-negative integers become
`Nat`; JS arrays become `List`; thrown exceptions become an error sum type
threaded through `Except`; the pixel image object is modelled as a function
from coordinates to an abstract pixel value, matching the spec's stance that
the pixel buffer is an opaque accessor.
-/

/-- OpenGL-style texture filters, from `FILTERS` in `src/lib/texture/index.ts`. -/
inductive FILTERS where
  | GL_LINEAR
  | GL_NEAREST
  | GL_LINEAR_MIPMAP_NEAREST
deriving DecidableEq, Repr

/-- The fields of a `Texture` that the tag codec reads and writes
(`src/lib/texture/index.ts`, class `Texture`), with the class's field
defaults.  The pixel image itself is handled separately (see the block-walk
and pixel-write definitions below); here we keep the scalar framing fields
that `Texture.load` assigns: the pixel-format index, the dimensions read from
the tag, the two filters, and the two layout booleans. -/
structure Texture where
  pixelFormatIndex : Nat := 0
  width : Nat := 0
  height : Nat := 0
  magFilter : FILTERS := .GL_LINEAR
  minFilter : FILTERS := .GL_NEAREST
  linear : Bool := true
  downscaling : Bool := true
deriving DecidableEq, Repr

/-- Tag-id selection of `Texture.save` (`src/lib/texture/index.ts` lines
298-330): `tag` starts at 1 and is reassigned only inside `if (hasData)`,
by the three filter branches transcribed here. -/
def textureSaveTag (hasData : Bool) (magFilter minFilter : FILTERS)
    (linear downscaling : Bool) : Nat :=
  let tag := 1
  if hasData then
    if magFilter = .GL_LINEAR ∧ minFilter = .GL_NEAREST then
      if !linear then (if downscaling then 28 else 27)
      else if !downscaling then 24
      else tag
    else if magFilter = .GL_LINEAR ∧ minFilter = .GL_LINEAR_MIPMAP_NEAREST then
      if !linear ∧ !downscaling then 29
      else (if downscaling then 16 else 19)
    else if magFilter = .GL_NEAREST ∧ minFilter = .GL_NEAREST then 34
    else tag
  else tag

/-- Field assignment of `Texture.load` (`src/lib/texture/index.ts` lines
215-239): filters default to `(GL_LINEAR, GL_NEAREST)`, tags 16/19/29
override to `(GL_LINEAR, GL_LINEAR_MIPMAP_NEAREST)`, tag 34 overrides to
`(GL_LINEAR, GL_LINEAR)`; `linear` is false exactly for tags 27/28/29 and
`downscaling` true exactly for tags 1/16/28/29.  `fmt`, `w`, `h` are the
`u8`/`u16`/`u16` values read from the tag payload. -/
def textureLoad (tag fmt w h : Nat) : Texture :=
  let filters : FILTERS × FILTERS :=
    if tag = 16 ∨ tag = 19 ∨ tag = 29 then
      (.GL_LINEAR, .GL_LINEAR_MIPMAP_NEAREST)
    else if tag = 34 then
      (.GL_LINEAR, .GL_LINEAR)
    else
      (.GL_LINEAR, .GL_NEAREST)
  { pixelFormatIndex := fmt
    width := w
    height := h
    magFilter := filters.1
    minFilter := filters.2
    linear := !(tag = 27 ∨ tag = 28 ∨ tag = 29 : Bool)
    downscaling := (tag = 1 ∨ tag = 16 ∨ tag = 28 ∨ tag = 29 : Bool) }

/-- Modelled from the spec: one row of the §4.4 texture tag table.
`linear`/`downscaling` are `none` for the "(any)" wildcard of tag 34. -/
structure SpecTagRow where
  tagId : Nat
  mag : FILTERS
  min : FILTERS
  linear : Option Bool
  downscaling : Option Bool
deriving DecidableEq, Repr

/-- Modelled from the spec: the §4.4 table, rows in ascending tag-id order. -/
def specTagTable : List SpecTagRow :=
  [ ⟨1,  .GL_LINEAR,  .GL_NEAREST,               some true,  some true⟩,
    ⟨16, .GL_LINEAR,  .GL_LINEAR_MIPMAP_NEAREST, some true,  some true⟩,
    ⟨19, .GL_LINEAR,  .GL_LINEAR_MIPMAP_NEAREST, some true,  some false⟩,
    ⟨24, .GL_LINEAR,  .GL_NEAREST,               some true,  some false⟩,
    ⟨27, .GL_LINEAR,  .GL_NEAREST,               some false, some false⟩,
    ⟨28, .GL_LINEAR,  .GL_NEAREST,               some false, some true⟩,
    ⟨29, .GL_LINEAR,  .GL_LINEAR_MIPMAP_NEAREST, some false, some true⟩,
    ⟨34, .GL_NEAREST, .GL_NEAREST,               none,       none⟩ ]

/-- Modelled from the spec: whether a §4.4 row matches a filter/layout
quadruple (wildcards match anything). -/
def specRowMatches (mag min : FILTERS) (linear downscaling : Bool)
    (row : SpecTagRow) : Bool :=
  row.mag = mag ∧ row.min = min
    ∧ (row.linear = none ∨ row.linear = some linear)
    ∧ (row.downscaling = none ∨ row.downscaling = some downscaling)

/-- Modelled from the spec (§4.4): "On save, the writer selects the minimal
tag id whose row matches `(mag, min, linear, downscaling)`; if none match
exactly, tag 1 is chosen."  The table is listed in ascending id order, so
the first matching row carries the minimal id. -/
def specSelectTag (mag min : FILTERS) (linear downscaling : Bool) : Nat :=
  match specTagTable.find? (specRowMatches mag min linear downscaling) with
  | some row => row.tagId
  | none => 1

/-- Modelled from the spec (§4.4): the table row for a given tag id. -/
def specLoadRow (tag : Nat) : Option SpecTagRow :=
  specTagTable.find? (fun row => row.tagId = tag)

/-- The texture-field round trip induced by the main-file save/load pair:
`Texture.save` with pixel data picks the tag id from the filter/layout
fields, and `Texture.load` of that tag reassigns them (plus the format
index and dimensions, which it copies from the payload header). -/
def textureFieldsRoundTrip (t : Texture) : Texture :=
  textureLoad (textureSaveTag true t.magFilter t.minFilter t.linear t.downscaling)
    t.pixelFormatIndex t.width t.height

/-- A texture whose filters are both `GL_NEAREST`, other fields at the
class defaults. -/
def nearestTexture : Texture :=
  { magFilter := .GL_NEAREST, minFilter := .GL_NEAREST }

/-- The `hasData` argument `SupercellSWF.saveAsset` passes to
`Texture.save` for the main file: `!this.hasExternalTexture`
(`swf.ts`, the `texture.save(this, !this.hasExternalTexture, false)` call). -/
def saveAssetTextureHasData (hasExternalTexture : Bool) : Bool :=
  !hasExternalTexture

/-- The condition under which `SupercellSWF.saveAsset` emits the tag-32
record (`swf.ts`): `this.useUncommonTexture && this.highresPostfix !==
'_highres' && this.lowresPostfix !== '_lowres'`. -/
def emitsResolutionSuffixTag (useUncommonTexture : Bool) (hi lo : String) : Bool :=
  useUncommonTexture && (hi != "_highres") && (lo != "_lowres")

/-- The three candidate external-texture files `SupercellSWF.load`
constructs from the document's base path (`swf.ts`). -/
inductive TexFile where
  | highres
  | lowres
  | common
deriving DecidableEq, Repr

/-- Error kinds of the core that the embedded fragments can raise.
`missingExternalTexture` is `ERRORS.INVALID_EXTERNAL_TEXTURE`; the four
count errors are the distinct count-overflow messages of `parseTags`;
`truncated` is modelled from the spec (§4.2): the byte buffer
(`buffer.ts`, not part of the sources here) fails a read past
end-of-buffer, which is what the tag-header read hits when the stream ends
without a terminator tag. -/
inductive ScError where
  | truncated
  | invalidShapeCount
  | invalidMovieClipCount
  | invalidTextFieldCount
  | invalidModifierCount
  | missingExternalTexture
deriving DecidableEq, Repr

/-- External-texture file choice of `SupercellSWF.load` (`swf.ts` lines
201-228), with `fs.existsSync` on each candidate path abstracted into the
three boolean arguments: `texturePath` starts undefined (`none`); when
`useUncommonTexture` it becomes the highres path if that file exists, else
the lowres path if that file exists; otherwise it becomes the common path
if that file exists. -/
def chooseTexturePath (useUncommonTexture existsHighres existsLowres existsCommon :
    Bool) : Option TexFile :=
  if useUncommonTexture then
    if existsHighres then some .highres
    else if existsLowres then some .lowres
    else none
  else
    if existsCommon then some .common
    else none

/-- The tail of `SupercellSWF.load`: if no candidate was chosen
(`texturePath === undefined`) the load throws
`ERRORS.INVALID_EXTERNAL_TEXTURE`, else it proceeds with the chosen file. -/
def resolveExternalTexture (useUncommonTexture existsHighres existsLowres
    existsCommon : Bool) : Except ScError TexFile :=
  match chooseTexturePath useUncommonTexture existsHighres existsLowres
      existsCommon with
  | some p => .ok p
  | none => .error .missingExternalTexture

/-- One framed record of the tag stream, as the dispatcher sees it: the
`u8` tag id read from the buffer, together with the payload values the
typed handlers consume from the buffer right after the header.  `fmt`,
`w`, `h` are read by `Texture.load`; `hiStr`/`loStr` are the two ASCII
strings of tag 32; `cnt` is the `u16` of tag 37.  Payloads of the shape /
movie-clip / text-field / matrix / color / modifier records are opaque
byte runs here, as the spec declares them (§1); unknown tags' payloads are
skipped wholesale by the dispatcher. -/
structure RawTag where
  id : Nat
  fmt : Nat := 0
  w : Nat := 0
  h : Nat := 0
  hiStr : String := ""
  loStr : String := ""
  cnt : Nat := 0
deriving DecidableEq, Repr

/-- The tag ids `parseTags` routes to `Texture.load`. -/
def textureTagIds : List Nat := [1, 16, 19, 24, 27, 28, 29, 34]

/-- The tag ids `parseTags` routes to `Shape.load`. -/
def shapeTagIds : List Nat := [2, 18]

/-- The tag ids `parseTags` routes to `MovieClip.load`. -/
def movieClipTagIds : List Nat := [3, 10, 12, 14, 35]

/-- The tag ids `parseTags` routes to `TextField.load`. -/
def textFieldTagIds : List Nat := [7, 15, 20, 21, 25, 33, 43, 44]

/-- The tag ids `parseTags` routes to `MovieClipModifier.load`. -/
def modifierTagIds : List Nat := [38, 39, 40]

/-- The mutable state of `SupercellSWF.parseTags` together with the
document fields the handlers touch: the header-declared counts, the
per-kind loaded counters, the texture list (pre-allocated by the header
read), the flag fields, and the resolution-suffix strings.  Matrix, color
and bank records are counted (`matricesLoaded`, `colorsLoaded`,
`banksLoaded`, and `banksCount` for the length of `swf.banks`); their
contents are opaque record payloads per the spec (§1). -/
structure ParseState where
  shapeCount : Nat := 0
  movieClipsCount : Nat := 0
  textFieldsCount : Nat := 0
  modifiersCount : Nat := 0
  shapesLoaded : Nat := 0
  movieclipsLoaded : Nat := 0
  textfieldsLoaded : Nat := 0
  modifiersLoaded : Nat := 0
  texturesLoaded : Nat := 0
  banksLoaded : Nat := 0
  banksCount : Nat := 1
  matricesLoaded : Nat := 0
  colorsLoaded : Nat := 0
  hasTextureData : Bool := true
  useLowresTexture : Bool := false
  hasExternalTexture : Bool := false
  useUncommonTexture : Bool := false
  highresSuffix : String := "_highres"
  lowresSuffix : String := "_lowres"
  textures : List Texture := []
deriving DecidableEq, Repr

/-- The texture case of the dispatcher (`swf.ts`): if
`this.textures[texturesLoaded]` exists, `Texture.load` refills that slot
in place (the texture is already in the list, so the `hasData` push inside
`Texture.load` finds it and does not append); otherwise a fresh
`new Texture().load(...)` runs, and `Texture.load` appends it to
`swf.textures` exactly when `hasData` (with `hasData` false the fresh
texture is discarded).  `texturesLoaded` always increments. -/
def handleTextureTag (st : ParseState) (t : RawTag) : ParseState :=
  let tex := textureLoad t.id t.fmt t.w t.h
  let textures :=
    if st.texturesLoaded < st.textures.length then
      st.textures.set st.texturesLoaded tex
    else if st.hasTextureData then st.textures ++ [tex]
    else st.textures
  { st with textures := textures, texturesLoaded := st.texturesLoaded + 1 }

/-- `SupercellSWF.parseTags` (`swf.ts` lines 620-772) over a framed tag
stream: the loop reads a tag header and dispatches on the id until tag 0.
The branches are transcribed in the source's `switch` order; the case
groups are disjoint so the if-chain matches the switch.  An exhausted
stream without a terminator is a buffer over-read, `Truncated` (modelled
from the spec §4.2, the buffer being outside these sources).  The default
branch logs and skips the payload. -/
def parseTags (st : ParseState) : List RawTag → Except ScError ParseState
  | [] => .error .truncated
  | t :: rest =>
    if t.id = 0 then .ok st
    else if t.id ∈ textureTagIds then
      parseTags (handleTextureTag st t) rest
    else if t.id = 23 then
      parseTags { st with useLowresTexture := true } rest
    else if t.id = 26 then
      parseTags { st with hasExternalTexture := true, hasTextureData := false } rest
    else if t.id = 30 then
      parseTags { st with useUncommonTexture := true } rest
    else if t.id = 32 then
      parseTags
        (if t.hiStr ≠ "" ∧ t.loStr ≠ "" then
          { st with highresSuffix := t.hiStr, lowresSuffix := t.loStr }
        else st) rest
    else if t.id ∈ shapeTagIds then
      if st.shapesLoaded ≥ st.shapeCount then .error .invalidShapeCount
      else parseTags { st with shapesLoaded := st.shapesLoaded + 1 } rest
    else if t.id ∈ movieClipTagIds then
      if st.movieclipsLoaded ≥ st.movieClipsCount then .error .invalidMovieClipCount
      else parseTags { st with movieclipsLoaded := st.movieclipsLoaded + 1 } rest
    else if t.id ∈ textFieldTagIds then
      if st.textfieldsLoaded ≥ st.textFieldsCount then .error .invalidTextFieldCount
      else parseTags { st with textfieldsLoaded := st.textfieldsLoaded + 1 } rest
    else if t.id = 8 ∨ t.id = 36 then
      parseTags { st with matricesLoaded := st.matricesLoaded + 1 } rest
    else if t.id = 9 then
      parseTags { st with colorsLoaded := st.colorsLoaded + 1 } rest
    else if t.id = 37 then
      parseTags { st with modifiersCount := t.cnt } rest
    else if t.id ∈ modifierTagIds then
      if st.modifiersLoaded ≥ st.modifiersCount then .error .invalidModifierCount
      else parseTags { st with modifiersLoaded := st.modifiersLoaded + 1 } rest
    else if t.id = 42 then
      parseTags { st with banksCount := st.banksCount + 1, banksLoaded := st.banksLoaded + 1, matricesLoaded := 0, colorsLoaded := 0 } rest
    else
      parseTags st rest

/-- The state `SupercellSWF.loadAsset` hands to `parseTags` after the
header read: the four `u16` counts, `textures` pre-allocated with
`textureCount` fresh `new Texture()` placeholders, every loaded counter at
zero, `_modifiersCount` zero, and `hasTextureData` starting true. -/
def initialState (shapeCount movieClipsCount textureCount textFieldsCount :
    Nat) : ParseState :=
  { shapeCount := shapeCount
    movieClipsCount := movieClipsCount
    textFieldsCount := textFieldsCount
    textures := List.replicate textureCount {} }

/-- A bare shape record with the given tag id. -/
def shapeRaw (id : Nat) : RawTag := { id := id }

/-- The terminator record, tag 0. -/
def endRaw : RawTag := { id := 0 }

/-- The external-texture marker record, tag 26. -/
def extTexRaw : RawTag := { id := 26 }

/-- The per-pixel step of the write loop of `Texture.save`
(`src/lib/texture/index.ts` lines 370-379): the pixel fetched from the
image (`pix = image.getPixelXY(x, y)`, a channel array) is replaced by
`new Array(image.channels).fill(0)` when the image has an alpha channel
(`image.alpha`) and the pixel's last entry — the alpha byte — is zero
(`pix[pix.length - 1] === 0`), and is handed to `writePixel` unchanged
otherwise.  The format packing `writePixel` then applies is outside this
definition. -/
def writtenPixel (hasAlpha : Bool) (channels : Nat) (pix : List Nat) : List Nat :=
  if hasAlpha && (pix.getLast? == some 0) then List.replicate channels 0 else pix

/-- The 32×32 block walk of the `!linear` save branch of `Texture.save`
(`src/lib/texture/index.ts` lines 341-367): `yBlock` runs over
`0 ... floor(height/32)` inclusive, `xBlock` over `0 ... floor(width/32)`
inclusive, and within a block `y` then `x` run over `0 ... 31`, breaking
out of the loop at the first coordinate past the image edge (so tail
blocks are truncated, not padded; the break of a `for` loop over
`0 ... 31` at the first failing index is exactly `takeWhile` on
`range 32`, the tested condition being monotone).  The walk lists the
image coordinates `(xBlock*32 + x, yBlock*32 + y)` in visit order. -/
def blockWalkSave (w h : Nat) : List (Nat × Nat) :=
  let blockSize := 32
  let xBlocks := w / blockSize
  let yBlocks := h / blockSize
  (List.range (yBlocks + 1)).flatMap (fun yBlock =>
    (List.range (xBlocks + 1)).flatMap (fun xBlock =>
      ((List.range blockSize).takeWhile
          (fun y => decide (yBlock * blockSize + y < h))).flatMap (fun y =>
        ((List.range blockSize).takeWhile
            (fun x => decide (xBlock * blockSize + x < w))).map (fun x =>
          (xBlock * blockSize + x, yBlock * blockSize + y)))))

/-- The 32×32 block walk of the `!linear` branch of `Texture.load`
(`src/lib/texture/index.ts` lines 256-285): the same four nested loops
with the same bounds and the same breaks as the save-side walk. -/
def blockWalkLoad (w h : Nat) : List (Nat × Nat) :=
  let blockSize := 32
  let xBlocks := w / blockSize
  let yBlocks := h / blockSize
  (List.range (yBlocks + 1)).flatMap (fun yBlock =>
    (List.range (xBlocks + 1)).flatMap (fun xBlock =>
      ((List.range blockSize).takeWhile
          (fun y => decide (yBlock * blockSize + y < h))).flatMap (fun y =>
        ((List.range blockSize).takeWhile
            (fun x => decide (xBlock * blockSize + x < w))).map (fun x =>
          (xBlock * blockSize + x, yBlock * blockSize + y)))))

/-- `image.setPixelXY(x, y, p)` on an image modelled as a coordinate
accessor: later writes shadow earlier ones. -/
def setPix {α : Type} (img : Nat → Nat → α) (x y : Nat) (p : α) :
    Nat → Nat → α :=
  fun a b => if a = x ∧ b = y then p else img a b

/-- The rearrangement pass of the `!linear` branch of `Texture.save`
(`src/lib/texture/index.ts` lines 334-368) over an arbitrary coordinate
list: the `k`-th visited coordinate's pixel (read from `originalImage`,
the untouched clone) is stored at the `k`-th linear position
`(pixelIndex % width, floor(pixelIndex / width))` of the working image,
which starts as that same clone. -/
def blockRearrange {α : Type} (w : Nat) (walk : List (Nat × Nat))
    (orig : Nat → Nat → α) : Nat → Nat → α :=
  walk.enum.foldl
    (fun img kc => setPix img (kc.1 % w) (kc.1 / w) (orig kc.2.1 kc.2.2)) orig

/-- The rearrangement pass applied to the save-side block walk, as
`Texture.save` runs it. -/
def rearrangeBlock {α : Type} (w h : Nat) (orig : Nat → Nat → α) :
    Nat → Nat → α :=
  blockRearrange w (blockWalkSave w h) orig

/-- The row-major write loop of `Texture.save` (`src/lib/texture/index.ts`
lines 370-379): `y` over the height, `x` over the width, each pixel passed
through the per-pixel write step `f` (the zero-alpha rule composed with
the format packing) and appended to the payload. -/
def saveLinearPayload {α β : Type} (w h : Nat) (f : α → β)
    (img : Nat → Nat → α) : List β :=
  (List.range h).flatMap (fun y => (List.range w).map (fun x => f (img x y)))

/-- The full `!linear` save path: rearrange the image along the block
walk, then emit it row-major. -/
def savePayloadBlock {α β : Type} (w h : Nat) (f : α → β)
    (orig : Nat → Nat → α) : List β :=
  saveLinearPayload w h f (rearrangeBlock w h orig)

/-- The `!linear` read branch of `Texture.load` (`src/lib/texture/index.ts`
lines 256-285): pixels are decoded sequentially from the payload (`g` is
the per-pixel read function) and stored at the load-side walk's
coordinates in visit order.  (zipping walk and payload models the
sequential `readPixel` cursor; the claims below use payloads of exactly
the walk's length, where the zip is the exact pairing.) -/
def loadImageBlock {α β : Type} (w h : Nat) (g : β → α) (payload : List β)
    (img0 : Nat → Nat → α) : Nat → Nat → α :=
  ((blockWalkLoad w h).zip payload).foldl
    (fun img cp => setPix img cp.1.1 cp.1.2 (g cp.2)) img0

/-- Claim C1: "for every document D, loading the bytes produced by saving D
yields a document structurally equal to D" fails on the code: a document
containing a texture with both filters `GL_NEAREST` saves that texture as
tag 34, and loading tag 34 sets both filters to `GL_LINEAR`, so the
reloaded document differs field-by-field from the original.  (The failure
is independent of the compression method, which wraps the same tag bytes.) -/
theorem roundTrip_fails_on_nearest_texture :
    textureFieldsRoundTrip nearestTexture ≠ nearestTexture
      ∧ (textureFieldsRoundTrip nearestTexture).magFilter = .GL_LINEAR
      ∧ nearestTexture.magFilter = .GL_NEAREST := by
  decide

/-- Claim C2: the claim says a texture with mag `LINEAR`, min
`LINEAR_MIPMAP_NEAREST`, `linear = false`, `downscaling = true` is written
as tag 29 (the minimal matching §4.4 row).  The code writes tag 16 for that
quadruple; its own loader reads tag 16 back as `linear = true`, breaking the
save/load mirror; the spec-modelled table selector yields 29 there.  (The
code also writes 29 for the quadruple `(LINEAR, LINEAR_MIPMAP_NEAREST,
false, false)`, which matches no row and should fall back to tag 1.) -/
theorem textureSaveTag_mipmap_block_divergence :
    textureSaveTag true .GL_LINEAR .GL_LINEAR_MIPMAP_NEAREST false true = 16
      ∧ specSelectTag .GL_LINEAR .GL_LINEAR_MIPMAP_NEAREST false true = 29
      ∧ (textureLoad
          (textureSaveTag true .GL_LINEAR .GL_LINEAR_MIPMAP_NEAREST false true)
          0 0 0).linear = true
      ∧ textureSaveTag true .GL_LINEAR .GL_LINEAR_MIPMAP_NEAREST false false = 29
      ∧ specSelectTag .GL_LINEAR .GL_LINEAR_MIPMAP_NEAREST false false = 1 := by
  decide

/-- Claim C3: the claim says loading a texture tag with id 34 sets
`magFilter` and `minFilter` to `NEAREST` (the §4.4 row for 34).  The code
sets both to `GL_LINEAR`; its own saver maps `(NEAREST, NEAREST)` to tag 34,
so the loader contradicts the saver it is meant to mirror.  All other tag
ids follow the table; e.g. tag 29 loads as the table row says. -/
theorem textureLoad_tag34_divergence :
    (textureLoad 34 0 0 0).magFilter = .GL_LINEAR
      ∧ (textureLoad 34 0 0 0).minFilter = .GL_LINEAR
      ∧ specLoadRow 34 = some ⟨34, .GL_NEAREST, .GL_NEAREST, none, none⟩
      ∧ textureSaveTag true .GL_NEAREST .GL_NEAREST true true = 34
      ∧ (textureLoad 29 0 0 0).magFilter = .GL_LINEAR
      ∧ (textureLoad 29 0 0 0).minFilter = .GL_LINEAR_MIPMAP_NEAREST
      ∧ (textureLoad 29 0 0 0).linear = false
      ∧ (textureLoad 29 0 0 0).downscaling = true := by
  decide

/-- Claim C9: a texture saved without pixel data (`hasData = false`, as in
the main file when `has_external_texture` is set) always emits tag id 1,
whatever its filter and layout fields: the tag-id selection runs only
inside `if (hasData)`. -/
theorem textureSaveTag_noData_always_one (magFilter minFilter : FILTERS)
    (linear downscaling : Bool) :
    textureSaveTag false magFilter minFilter linear downscaling = 1
      ∧ textureSaveTag (saveAssetTextureHasData true)
          magFilter minFilter linear downscaling = 1 := by
  exact ⟨rfl, rfl⟩

/-- Claim C4 counterexample: the claim says the tag-32 record is emitted
when `use_uncommon_texture` is set and at least one of the two name
suffixes differs from its default; with `highres = "_hd"` (non-default) and
`lowres = "_lowres"` (default) the code does not emit it. -/
theorem emitsResolutionSuffixTag_not_at_least_one :
    emitsResolutionSuffixTag true "_hd" "_lowres" = false
      ∧ ("_hd" ≠ "_highres" ∨ ("_lowres" : String) ≠ "_lowres") := by
  exact ⟨rfl, Or.inl (by decide)⟩

/-- Claim C4 (amended): on save, the tag-32 record is emitted if and only
if `use_uncommon_texture` is set and BOTH `highres_postfix` and
`lowres_postfix` differ from their defaults (`"_highres"` / `"_lowres"`). -/
theorem emitsResolutionSuffixTag_iff (useUncommonTexture : Bool) (hi lo : String) :
    emitsResolutionSuffixTag useUncommonTexture hi lo = true
      ↔ useUncommonTexture = true ∧ hi ≠ "_highres" ∧ lo ≠ "_lowres" := by
  simp [emitsResolutionSuffixTag, and_assoc]

/-- Claim C5 counterexample: the claim says that when `use_uncommon_texture`
is set and neither the highres nor the lowres file exists but the common
`_tex.sc` exists, the common file is used; the code instead leaves
`texturePath` undefined and fails with `MissingExternalTexture`. -/
theorem chooseTexturePath_no_common_fallback :
    chooseTexturePath true false false true ≠ some TexFile.common
      ∧ resolveExternalTexture true false false true
          = Except.error ScError.missingExternalTexture := by
  exact ⟨by decide, rfl⟩

/-- Claim C5 (amended): when `use_uncommon_texture` is set, the load uses
the highres file if it exists, else the lowres file if it exists, else
fails with `MissingExternalTexture` — even when the common `_tex.sc`
exists; when `use_uncommon_texture` is clear, it uses the common file if it
exists and fails otherwise, never consulting the highres/lowres files. -/
theorem resolveExternalTexture_precedence (existsHighres existsLowres
    existsCommon : Bool) :
    resolveExternalTexture true true existsLowres existsCommon
        = Except.ok TexFile.highres
      ∧ resolveExternalTexture true false true existsCommon
          = Except.ok TexFile.lowres
      ∧ resolveExternalTexture true false false existsCommon
          = Except.error ScError.missingExternalTexture
      ∧ resolveExternalTexture false existsHighres existsLowres true
          = Except.ok TexFile.common
      ∧ resolveExternalTexture false existsHighres existsLowres false
          = Except.error ScError.missingExternalTexture := by
  exact ⟨rfl, rfl, rfl, rfl, rfl⟩

lemma parseTags_terminator (st : ParseState) (rest : List RawTag) :
    parseTags st (endRaw :: rest) = .ok st := rfl

lemma parseTags_shape_step (st : ParseState) (t : RawTag) (rest : List RawTag)
    (h : t.id ∈ shapeTagIds) :
    parseTags st (t :: rest)
      = if st.shapesLoaded ≥ st.shapeCount then .error .invalidShapeCount
        else parseTags { st with shapesLoaded := st.shapesLoaded + 1 } rest := by
  have h2 : t.id = 2 ∨ t.id = 18 := by simpa [shapeTagIds] using h
  rcases h2 with h2 | h2 <;>
    simp [parseTags, h2, textureTagIds, shapeTagIds]

lemma parse_shapes_from (id : Nat) (hid : id ∈ shapeTagIds) (N M T F : Nat) :
    ∀ (k s : Nat) (rest : List RawTag), s + k ≤ N →
    parseTags { initialState N M T F with shapesLoaded := s }
        (List.replicate k (shapeRaw id) ++ rest)
      = parseTags { initialState N M T F with shapesLoaded := s + k } rest := by
  intro k
  induction k with
  | zero => intro s rest _; rfl
  | succ k ih =>
    intro s rest hle
    show parseTags { initialState N M T F with shapesLoaded := s }
        (shapeRaw id :: (List.replicate k (shapeRaw id) ++ rest)) = _
    rw [parseTags_shape_step _ _ _ hid]
    rw [if_neg (by simp [initialState]; omega)]
    have := ih (s + 1) rest (by omega)
    rw [show ({ initialState N M T F with shapesLoaded := s } : ParseState).shapesLoaded + 1 = s + 1 from rfl]
    rw [this, show s + 1 + k = s + (k + 1) from by omega]

/-- Claim C6: with a header declaring `N` shapes, a stream carrying `N+1`
shape records (tag 2 or 18) fails with the shape `CountOverflow` exactly at
the `(N+1)`-th shape record — whatever follows it — while the same stream
cut after `N` shape records parses to completion with all `N` shapes
counted. -/
theorem parseTags_shape_overflow (N M T F : Nat) (id : Nat)
    (hid : id ∈ shapeTagIds) (rest : List RawTag) :
    parseTags (initialState N M T F)
        (List.replicate (N + 1) (shapeRaw id) ++ rest)
      = .error .invalidShapeCount
    ∧ parseTags (initialState N M T F)
        (List.replicate N (shapeRaw id) ++ [endRaw])
      = .ok { initialState N M T F with shapesLoaded := N } := by
  constructor
  · have hsplit : List.replicate (N + 1) (shapeRaw id) ++ rest
        = List.replicate N (shapeRaw id) ++ (shapeRaw id :: rest) := by
      simp [List.replicate_succ', List.append_assoc]
    rw [hsplit,
      show (initialState N M T F)
        = { initialState N M T F with shapesLoaded := 0 } from rfl,
      parse_shapes_from id hid N M T F N 0 (shapeRaw id :: rest) (by omega),
      parseTags_shape_step _ _ _ hid,
      if_pos (by simp [initialState])]
  · rw [show (initialState N M T F)
        = { initialState N M T F with shapesLoaded := 0 } from rfl,
      parse_shapes_from id hid N M T F N 0 [endRaw] (by omega),
      parseTags_terminator,
      show (0 : Nat) + N = N from by omega]

theorem parseTags_shape_overflow_witness :
    (2 ∈ shapeTagIds)
    ∧ parseTags (initialState 1 0 0 0)
        (List.replicate 2 (shapeRaw 2) ++ []) = .error .invalidShapeCount
    ∧ parseTags (initialState 1 0 0 0)
        (List.replicate 1 (shapeRaw 2) ++ [endRaw])
      = .ok { initialState 1 0 0 0 with shapesLoaded := 1 } :=
  ⟨by decide, parseTags_shape_overflow 1 0 0 0 2 (by decide) []⟩

lemma parseTags_texture_step (st : ParseState) (t : RawTag) (rest : List RawTag)
    (h : t.id ∈ textureTagIds) :
    parseTags st (t :: rest) = parseTags (handleTextureTag st t) rest := by
  have h2 : t.id = 1 ∨ t.id = 16 ∨ t.id = 19 ∨ t.id = 24 ∨ t.id = 27
      ∨ t.id = 28 ∨ t.id = 29 ∨ t.id = 34 := by
    simpa [textureTagIds] using h
  rcases h2 with h2 | h2 | h2 | h2 | h2 | h2 | h2 | h2 <;>
    simp [parseTags, h2, textureTagIds]

lemma handleTextureTag_facts (st : ParseState) (t : RawTag) :
    (handleTextureTag st t).texturesLoaded = st.texturesLoaded + 1
    ∧ (handleTextureTag st t).hasTextureData = st.hasTextureData
    ∧ (st.hasTextureData = true → st.texturesLoaded ≤ st.textures.length →
        (handleTextureTag st t).textures.length
          = max st.textures.length (st.texturesLoaded + 1))
    ∧ (st.hasTextureData = false →
        (handleTextureTag st t).textures.length = st.textures.length) := by
  refine ⟨rfl, rfl, ?_, ?_⟩
  · intro hd hle
    by_cases h : st.texturesLoaded < st.textures.length
    · simp [handleTextureTag, h]; omega
    · simp [handleTextureTag, h, hd]; omega
  · intro hd
    by_cases h : st.texturesLoaded < st.textures.length
    · simp [handleTextureTag, h]
    · simp [handleTextureTag, h, hd]

lemma parse_textures_from (t : RawTag) (ht : t.id ∈ textureTagIds) :
    ∀ (k : Nat) (st : ParseState) (rest : List RawTag),
    st.hasTextureData = true → st.texturesLoaded ≤ st.textures.length →
    ∃ st2 : ParseState,
      parseTags st (List.replicate k t ++ rest) = parseTags st2 rest
      ∧ st2.texturesLoaded = st.texturesLoaded + k
      ∧ st2.textures.length = max st.textures.length (st.texturesLoaded + k)
      ∧ st2.hasTextureData = true := by
  intro k
  induction k with
  | zero =>
    intro st rest hd hle
    exact ⟨st, rfl, rfl, by omega, hd⟩
  | succ k ih =>
    intro st rest hd hle
    obtain ⟨htl, hhd, hlen, _⟩ := handleTextureTag_facts st t
    have hd' : (handleTextureTag st t).hasTextureData = true := by rw [hhd]; exact hd
    have hlen' := hlen hd hle
    have hle' : (handleTextureTag st t).texturesLoaded
        ≤ (handleTextureTag st t).textures.length := by
      rw [htl, hlen']; omega
    obtain ⟨st2, heq, h1, h2, h3⟩ := ih (handleTextureTag st t) rest hd' hle'
    refine ⟨st2, ?_, by omega, by rw [h2, htl, hlen']; omega, h3⟩
    show parseTags st (t :: (List.replicate k t ++ rest)) = parseTags st2 rest
    rw [parseTags_texture_step _ _ _ ht, heq]

lemma parse_textures_from_noData (t : RawTag) (ht : t.id ∈ textureTagIds) :
    ∀ (k : Nat) (st : ParseState) (rest : List RawTag),
    st.hasTextureData = false →
    ∃ st2 : ParseState,
      parseTags st (List.replicate k t ++ rest) = parseTags st2 rest
      ∧ st2.textures.length = st.textures.length := by
  intro k
  induction k with
  | zero => intro st rest _; exact ⟨st, rfl, rfl⟩
  | succ k ih =>
    intro st rest hd
    obtain ⟨htl, hhd, _, hlen⟩ := handleTextureTag_facts st t
    have hd' : (handleTextureTag st t).hasTextureData = false := by rw [hhd]; exact hd
    obtain ⟨st2, heq, h1⟩ := ih (handleTextureTag st t) rest hd'
    refine ⟨st2, ?_, by rw [h1, hlen hd]⟩
    show parseTags st (t :: (List.replicate k t ++ rest)) = parseTags st2 rest
    rw [parseTags_texture_step _ _ _ ht, heq]

lemma parseTags_extTex_step (st : ParseState) (rest : List RawTag) :
    parseTags st (extTexRaw :: rest)
      = parseTags { st with hasExternalTexture := true, hasTextureData := false }
          rest := rfl

/-- Claim C10: texture records are not checked against the header-declared
texture count: with `T` declared textures, a stream of `T + k` texture
records parses to completion (no `CountOverflow`), the first `T` refilling
the pre-allocated slots and each of the `k` extra ones parsed into a fresh
`Texture` appended to the list, so the final list has `T + k` entries.
When the records carry no pixel data (tag 26 seen first), the extra fresh
textures are not appended and the list keeps its `T` placeholder slots. -/
theorem parseTags_texture_over_count (T k N M F : Nat) (t : RawTag)
    (ht : t.id ∈ textureTagIds) :
    (∃ st2 : ParseState,
      parseTags (initialState N M T F) (List.replicate (T + k) t ++ [endRaw])
          = .ok st2
        ∧ st2.textures.length = T + k
        ∧ st2.texturesLoaded = T + k)
    ∧ (∃ st3 : ParseState,
      parseTags (initialState N M T F)
          (extTexRaw :: (List.replicate (T + k) t ++ [endRaw]))
          = .ok st3
        ∧ st3.textures.length = T) := by
  constructor
  · obtain ⟨st2, heq, h1, h2, _⟩ :=
      parse_textures_from t ht (T + k) (initialState N M T F) [endRaw] rfl
        (by simp [initialState])
    refine ⟨st2, by rw [heq, parseTags_terminator], ?_, ?_⟩
    · rw [h2]; simp [initialState]
    · rw [h1]; simp [initialState]
  · rw [parseTags_extTex_step]
    obtain ⟨st3, heq, h1⟩ :=
      parse_textures_from_noData t ht (T + k)
        { initialState N M T F with hasExternalTexture := true, hasTextureData := false } [endRaw] rfl
    refine ⟨st3, by rw [heq, parseTags_terminator], ?_⟩
    rw [h1]; simp [initialState]

theorem parseTags_texture_over_count_witness :
    ((1 : Nat) ∈ textureTagIds)
    ∧ (∃ st2 : ParseState,
      parseTags (initialState 0 0 1 0)
          (List.replicate (1 + 2) (shapeRaw 1) ++ [endRaw]) = .ok st2
        ∧ st2.textures.length = 1 + 2
        ∧ st2.texturesLoaded = 1 + 2)
    ∧ (∃ st3 : ParseState,
      parseTags (initialState 0 0 1 0)
          (extTexRaw :: (List.replicate (1 + 2) (shapeRaw 1) ++ [endRaw]))
          = .ok st3
        ∧ st3.textures.length = 1) :=
  ⟨by decide, parseTags_texture_over_count 1 2 0 0 0 (shapeRaw 1) (by decide)⟩

/-- Claim C7: on texture save with pixel data, a pixel of an
alpha-carrying image whose alpha byte (the last channel) is zero is
written with every channel zero, and a pixel whose alpha byte is non-zero
is passed to the pixel packer unchanged (as is every pixel of an image
without an alpha channel). -/
theorem writtenPixel_zero_alpha (channels : Nat) (pix : List Nat) :
    (pix.getLast? = some 0 →
      writtenPixel true channels pix = List.replicate channels 0
      ∧ ∀ c ∈ writtenPixel true channels pix, c = 0)
    ∧ (∀ a, pix.getLast? = some a → a ≠ 0 →
        writtenPixel true channels pix = pix)
    ∧ writtenPixel false channels pix = pix := by
  refine ⟨?_, ?_, rfl⟩
  · intro h
    constructor
    · simp [writtenPixel, h]
    · intro c hc
      rw [writtenPixel] at hc
      simp [h] at hc
      exact hc.2
  · intro a ha hne
    simp [writtenPixel, ha, hne]

theorem writtenPixel_zero_alpha_witness :
    ([7, 8, 9, 0].getLast? = some 0
      ∧ writtenPixel true 4 [7, 8, 9, 0] = List.replicate 4 0)
    ∧ ([1, 2, 3, 4].getLast? = some 4 ∧ (4 : Nat) ≠ 0
      ∧ writtenPixel true 4 [1, 2, 3, 4] = [1, 2, 3, 4]) :=
  ⟨⟨rfl, ((writtenPixel_zero_alpha 4 [7, 8, 9, 0]).1 rfl).1⟩,
   ⟨rfl, by decide, (writtenPixel_zero_alpha 4 [1, 2, 3, 4]).2.1 4 rfl (by decide)⟩⟩

lemma takeWhile_range_lt : ∀ (n a m : Nat),
    (List.range n).takeWhile (fun i => decide (a + i < m))
      = List.range (min n (m - a)) := by
  intro n
  induction n with
  | zero => intro a m; simp
  | succ n ih =>
    intro a m
    rw [List.range_succ_eq_map, List.takeWhile_cons]
    by_cases h : a < m
    · rw [if_pos (by simpa using h), List.takeWhile_map]
      have hcomp : ((fun i => decide (a + i < m)) ∘ Nat.succ)
          = (fun i => decide ((a + 1) + i < m)) := by
        funext i
        rw [Function.comp_apply, decide_eq_decide]
        omega
      rw [hcomp, ih (a + 1) m, ← List.range_succ_eq_map,
        show min n (m - (a + 1)) + 1 = min (n + 1) (m - a) from by omega]
    · rw [if_neg (by simpa using h),
        show min (n + 1) (m - a) = 0 from by omega]
      rfl

lemma sum_min32_aux : ∀ (q r : Nat), r < 32 →
    ((List.range (q + 1)).map (fun b => min 32 (32 * q + r - b * 32))).sum
      = 32 * q + r := by
  intro q
  induction q with
  | zero =>
    intro r hr
    rw [show List.range 1 = [0] from rfl]
    simp
    omega
  | succ q ih =>
    intro r hr
    rw [List.range_succ_eq_map]
    rw [List.map_cons, List.map_map, List.sum_cons]
    have hcomp : ((fun b => min 32 (32 * (q + 1) + r - b * 32)) ∘ Nat.succ)
        = (fun b => min 32 (32 * q + r - b * 32)) := by
      funext b
      rw [Function.comp_apply]
      congr 1
      omega
    rw [hcomp, ih r hr]
    omega

lemma sum_min32 (m : Nat) :
    ((List.range (m / 32 + 1)).map (fun b => min 32 (m - b * 32))).sum = m := by
  have h := sum_min32_aux (m / 32) (m % 32) (by omega)
  have he : (fun b => min 32 (32 * (m / 32) + m % 32 - b * 32))
      = (fun b => min 32 (m - b * 32)) := by
    funext b
    congr 1
    omega
  rw [he] at h
  rw [h]
  omega

lemma blockWalkSave_eq (w h : Nat) : blockWalkSave w h =
    (List.range (h / 32 + 1)).flatMap (fun yBlock =>
      (List.range (w / 32 + 1)).flatMap (fun xBlock =>
        (List.range (min 32 (h - yBlock * 32))).flatMap (fun y =>
          (List.range (min 32 (w - xBlock * 32))).map (fun x =>
            (xBlock * 32 + x, yBlock * 32 + y))))) := by
  simp only [blockWalkSave, takeWhile_range_lt]

lemma blockWalkSave_length (w h : Nat) : (blockWalkSave w h).length = w * h := by
  rw [blockWalkSave_eq, List.length_flatMap]
  have hx : ∀ yBlock xBlock : Nat,
      ((List.range (min 32 (h - yBlock * 32))).flatMap (fun y =>
        (List.range (min 32 (w - xBlock * 32))).map (fun x =>
          (xBlock * 32 + x, yBlock * 32 + y)))).length
      = min 32 (h - yBlock * 32) * min 32 (w - xBlock * 32) := by
    intro yBlock xBlock
    rw [List.length_flatMap]
    have hc : (List.length ∘ fun y =>
        (List.range (min 32 (w - xBlock * 32))).map (fun x =>
          (xBlock * 32 + x, yBlock * 32 + y)))
        = Function.const Nat (min 32 (w - xBlock * 32)) := by
      funext y
      simp [Function.const]
    rw [hc, List.map_const, List.sum_replicate, smul_eq_mul, List.length_range]
  have hy : ∀ yBlock : Nat,
      ((List.range (w / 32 + 1)).flatMap (fun xBlock =>
        (List.range (min 32 (h - yBlock * 32))).flatMap (fun y =>
          (List.range (min 32 (w - xBlock * 32))).map (fun x =>
            (xBlock * 32 + x, yBlock * 32 + y))))).length
      = min 32 (h - yBlock * 32) * w := by
    intro yBlock
    rw [List.length_flatMap]
    have hc : (List.length ∘ fun xBlock =>
        (List.range (min 32 (h - yBlock * 32))).flatMap (fun y =>
          (List.range (min 32 (w - xBlock * 32))).map (fun x =>
            (xBlock * 32 + x, yBlock * 32 + y))))
        = fun xBlock => min 32 (h - yBlock * 32) * min 32 (w - xBlock * 32) := by
      funext xBlock
      exact hx yBlock xBlock
    rw [hc, List.sum_map_mul_left, sum_min32]
  have hc : (List.length ∘ fun yBlock =>
      (List.range (w / 32 + 1)).flatMap (fun xBlock =>
        (List.range (min 32 (h - yBlock * 32))).flatMap (fun y =>
          (List.range (min 32 (w - xBlock * 32))).map (fun x =>
            (xBlock * 32 + x, yBlock * 32 + y)))))
      = fun yBlock => min 32 (h - yBlock * 32) * w := by
    funext yBlock
    exact hy yBlock
  rw [hc, List.sum_map_mul_right, sum_min32, Nat.mul_comm]

lemma mem_blockWalkSave (w h x y : Nat) (hx : x < w) (hy : y < h) :
    (x, y) ∈ blockWalkSave w h := by
  rw [blockWalkSave_eq, List.mem_flatMap]
  refine ⟨y / 32, by rw [List.mem_range]; omega, ?_⟩
  rw [List.mem_flatMap]
  refine ⟨x / 32, by rw [List.mem_range]; omega, ?_⟩
  rw [List.mem_flatMap]
  refine ⟨y % 32, by rw [List.mem_range]; omega, ?_⟩
  rw [List.mem_map]
  refine ⟨x % 32, by rw [List.mem_range]; omega, ?_⟩
  have h1 : x / 32 * 32 + x % 32 = x := by omega
  have h2 : y / 32 * 32 + y % 32 = y := by omega
  rw [h1, h2]

lemma foldl_setPix_enumFrom {α : Type} (w : Nat) (v : Nat × Nat → α) :
    ∀ (L : List (Nat × Nat)) (n : Nat) (init : Nat → Nat → α) (x y : Nat),
    x < w →
    ((L.enumFrom n).foldl
        (fun img kc => setPix img (kc.1 % w) (kc.1 / w) (v kc.2)) init) x y
      = if n ≤ w * y + x then
          ((L[w * y + x - n]?).map v).getD (init x y)
        else init x y := by
  intro L
  induction L with
  | nil =>
    intro n init x y hx
    by_cases hn : n ≤ w * y + x <;> simp [hn]
  | cons c L ih =>
    intro n init x y hx
    have hw : 0 < w := by omega
    have hpos : (x = n % w ∧ y = n / w) ↔ n = w * y + x := by
      constructor
      · rintro ⟨h1, h2⟩
        subst h1
        subst h2
        have := Nat.div_add_mod n w
        omega
      · intro hn
        have h1 : n % w = x := by
          rw [hn, Nat.mul_add_mod, Nat.mod_eq_of_lt hx]
        have h2 : n / w = y := by
          rw [hn, Nat.mul_add_div hw, Nat.div_eq_of_lt hx, Nat.add_zero]
        exact ⟨h1.symm, h2.symm⟩
    have hinit : (setPix init (n % w) (n / w) (v c)) x y
        = if n = w * y + x then v c else init x y := by
      rw [setPix, if_congr hpos rfl rfl]
    rw [show (c :: L).enumFrom n = (n, c) :: L.enumFrom (n + 1) from rfl,
      List.foldl_cons, ih (n + 1) _ x y hx]
    by_cases h1 : n + 1 ≤ w * y + x
    · rw [if_pos h1, if_pos (by omega)]
      have hidx : w * y + x - n = (w * y + x - (n + 1)) + 1 := by omega
      rw [hidx, List.getElem?_cons_succ]
      cases hL : L[w * y + x - (n + 1)]? with
      | some d => simp
      | none =>
        show (setPix init (n % w) (n / w) (v c)) x y = init x y
        rw [hinit, if_neg (by omega)]
    · rw [if_neg h1, hinit]
      by_cases h2 : n = w * y + x
      · rw [if_pos h2, if_pos (by omega),
          show w * y + x - n = 0 from by omega, List.getElem?_cons_zero]
        simp
      · rw [if_neg h2, if_neg (by omega)]

lemma blockRearrange_apply {α : Type} (w : Nat) (L : List (Nat × Nat))
    (orig : Nat → Nat → α) (x y : Nat) (hx : x < w) :
    blockRearrange w L orig x y
      = ((L[w * y + x]?).map (fun c => orig c.1 c.2)).getD (orig x y) := by
  have h := foldl_setPix_enumFrom w (fun c => orig c.1 c.2) L 0 orig x y hx
  rw [if_pos (Nat.zero_le _), Nat.sub_zero] at h
  rw [blockRearrange, List.enum_eq_enumFrom]
  exact h

lemma saveLinearPayload_length {α β : Type} (w h : Nat) (f : α → β)
    (img : Nat → Nat → α) :
    (saveLinearPayload w h f img).length = h * w := by
  rw [saveLinearPayload, List.length_flatMap]
  have hc : (List.length ∘ fun y => (List.range w).map (fun x => f (img x y)))
      = Function.const Nat w := by
    funext y
    simp [Function.const]
  rw [hc, List.map_const, List.sum_replicate, smul_eq_mul, List.length_range]

lemma saveLinearPayload_getElem {α β : Type} (w : Nat) (f : α → β) :
    ∀ (h : Nat) (img : Nat → Nat → α) (k : Nat), k < h * w →
    (saveLinearPayload w h f img)[k]? = some (f (img (k % w) (k / w))) := by
  intro h
  induction h with
  | zero => intro img k hk; omega
  | succ h ih =>
    intro img k hk
    have hsplit : saveLinearPayload w (h + 1) f img
        = saveLinearPayload w h f img
          ++ (List.range w).map (fun x => f (img x h)) := by
      rw [saveLinearPayload, saveLinearPayload, List.range_succ,
        List.flatMap_append]
      simp
    have hexp : (h + 1) * w = h * w + w := by ring
    by_cases hkh : k < h * w
    · rw [hsplit,
        List.getElem?_append_left (by rw [saveLinearPayload_length]; exact hkh)]
      exact ih img k hkh
    · have hw0 : h * w ≤ k := by omega
      have hcomm : w * h = h * w := Nat.mul_comm w h
      obtain ⟨j, rfl, hjlt⟩ : ∃ j, k = w * h + j ∧ j < w :=
        ⟨k - h * w, by omega, by omega⟩
      have hw : 0 < w := by omega
      rw [hsplit,
        List.getElem?_append_right (by rw [saveLinearPayload_length]; omega),
        saveLinearPayload_length]
      have hidx : w * h + j - h * w = j := by omega
      rw [hidx, List.getElem?_map, List.getElem?_range hjlt]
      have h1 : (w * h + j) % w = j := by
        rw [Nat.mul_add_mod, Nat.mod_eq_of_lt hjlt]
      have h2 : (w * h + j) / w = h := by
        rw [Nat.mul_add_div hw, Nat.div_eq_of_lt hjlt, Nat.add_zero]
      rw [h1, h2]
      rfl

lemma savePayload_map_walk {α β : Type} (w h : Nat) (f : α → β)
    (orig : Nat → Nat → α) :
    savePayloadBlock w h f orig
      = (blockWalkSave w h).map (fun c => f (orig c.1 c.2)) := by
  apply List.ext_getElem?
  intro k
  by_cases hk : k < w * h
  · have hw : 0 < w := by
      rcases Nat.eq_zero_or_pos w with h0 | h0
      · subst h0; simp at hk
      · exact h0
    have hk' : k < h * w := by rw [Nat.mul_comm h w]; exact hk
    have hkW : k < (blockWalkSave w h).length := by
      rw [blockWalkSave_length]; exact hk
    rw [show savePayloadBlock w h f orig
        = saveLinearPayload w h f (rearrangeBlock w h orig) from rfl,
      saveLinearPayload_getElem w f h _ k hk']
    have hxw : k % w < w := Nat.mod_lt _ hw
    have happ := blockRearrange_apply w (blockWalkSave w h) orig
        (k % w) (k / w) hxw
    rw [Nat.div_add_mod k w, List.getElem?_eq_getElem hkW] at happ
    rw [show rearrangeBlock w h orig
        = blockRearrange w (blockWalkSave w h) orig from rfl, happ,
      List.getElem?_map, List.getElem?_eq_getElem hkW]
    rfl
  · rw [List.getElem?_eq_none
        (by rw [show savePayloadBlock w h f orig
            = saveLinearPayload w h f (rearrangeBlock w h orig) from rfl,
          saveLinearPayload_length, Nat.mul_comm h w]; omega),
      List.getElem?_eq_none
        (by rw [List.length_map, blockWalkSave_length]; omega)]

lemma foldl_setPix_mem {α : Type} (v : Nat → Nat → α) :
    ∀ (L : List (Nat × Nat)) (init : Nat → Nat → α) (x y : Nat),
    (L.foldl (fun img c => setPix img c.1 c.2 (v c.1 c.2)) init) x y
      = if (x, y) ∈ L then v x y else init x y := by
  intro L
  induction L with
  | nil => intro init x y; simp
  | cons c L ih =>
    intro init x y
    rw [List.foldl_cons, ih]
    by_cases hmem : (x, y) ∈ L
    · rw [if_pos hmem, if_pos (List.mem_cons_of_mem c hmem)]
    · rw [if_neg hmem]
      by_cases heq : (x, y) = c
      · subst heq
        rw [if_pos (List.mem_cons_self _ _)]
        simp [setPix]
      · rw [if_neg (by simp [List.mem_cons, heq, hmem])]
        have hne : ¬(x = c.1 ∧ y = c.2) := by
          rw [Prod.ext_iff] at heq
          exact heq
        simp [setPix, hne]

/-- Claim C8: for every block-layout texture (any width and height) the
write side and the read side traverse the image in the same 32×32-block
order (`blockWalkSave = blockWalkLoad`), the `k`-th pixel of the emitted
payload is the image pixel at the `k`-th walk coordinate
`(xBlock*32 + x, yBlock*32 + y)` (tail blocks truncated by the loop
breaks), and therefore writing a block-layout pixel matrix and reading it
back reconstructs the same pixel at every in-range coordinate, for any
per-pixel packer `f` and unpacker `g` with `g ∘ f = id`. -/
theorem blockWalk_roundTrip {α β : Type} (w h : Nat) (f : α → β) (g : β → α)
    (hgf : ∀ p, g (f p) = p) (orig init : Nat → Nat → α) (x y : Nat)
    (hx : x < w) (hy : y < h) :
    blockWalkSave w h = blockWalkLoad w h
    ∧ savePayloadBlock w h f orig
        = (blockWalkSave w h).map (fun c => f (orig c.1 c.2))
    ∧ loadImageBlock w h g (savePayloadBlock w h f orig) init x y
        = orig x y := by
  refine ⟨rfl, savePayload_map_walk w h f orig, ?_⟩
  rw [savePayload_map_walk w h f orig, loadImageBlock,
    show blockWalkLoad w h = blockWalkSave w h from rfl]
  have hzip : (blockWalkSave w h).zip
        ((blockWalkSave w h).map (fun c => f (orig c.1 c.2)))
      = (blockWalkSave w h).map (fun c => (c, f (orig c.1 c.2))) := by
    nth_rewrite 1 [show blockWalkSave w h
        = (blockWalkSave w h).map id from (List.map_id _).symm]
    rw [List.zip_map']
    rfl
  rw [hzip, List.foldl_map]
  have hmem := foldl_setPix_mem (fun a b => g (f (orig a b)))
      (blockWalkSave w h) init x y
  rw [if_pos (mem_blockWalkSave w h x y hx hy), hgf] at hmem
  exact hmem

theorem blockWalk_roundTrip_witness :
    ((0 : Nat) < 2 ∧ (1 : Nat) < 2 ∧ ∀ p : Nat, id (id p) = p)
    ∧ (blockWalkSave 2 2 = blockWalkLoad 2 2
      ∧ savePayloadBlock 2 2 id (fun a b => a + 10 * b)
          = (blockWalkSave 2 2).map
              (fun c => id ((fun a b => a + 10 * b) c.1 c.2))
      ∧ loadImageBlock 2 2 id
          (savePayloadBlock 2 2 id (fun a b => a + 10 * b))
          (fun _ _ => 0) 0 1 = 10) :=
  ⟨⟨by decide, by decide, fun p => rfl⟩,
   blockWalk_roundTrip 2 2 id id (fun p => rfl) (fun a b => a + 10 * b)
     (fun _ _ => 0) 0 1 (by decide) (by decide)⟩
